import Mathlib

/-!
# coredns-redis: `ServeDNS` (handler.go)

A shallow embedding of `src/handler.go` and the properties of its query handler.

* Go strings are Lean `String`s, Go slices are `List`s, Go `int`s are `Int`s (the only
  arithmetic is the running length `l` of the AXFR producer, which is reset at every cut
  and stays far below the 64-bit range).
* Everything the handler calls but does not define is a parameter: the packages it
  imports are the fields of `Lib`, the receiver and the methods of the package defined
  in other files are the fields of `Redis`. The handler is verified for every behaviour
  of these collaborators.
* Effects are explicit: `ServeDNS` returns the ordered list of the calls it makes to its
  collaborators and to the transport (`Event`) together with its `(int, error)` result.
* The producer goroutine of a zone transfer is modelled by the sequence of envelopes it
  sends on the channel when the consumer `tr.Out` drains it.
-/

namespace CorednsRedis

/-! ## Data model -/

/-- A wire resource record (`dns.RR`): an owner name, a type and its data. -/
structure RR where
  Name : String
  Rrtype : String
  Rdata : String
deriving DecidableEq

/-- The `dns.Envelope` of a zone transfer: the records of one message. -/
structure Envelope where
  RR : List RR
deriving DecidableEq

/-- Modelled from the spec: the zone type is declared outside handler.go; the handler
reads only its `Name` (a fully-qualified domain suffix). `Locations` stands for the
owner names it holds. -/
structure Zone where
  Name : String
  Locations : List String
deriving DecidableEq

/-- Modelled from the spec: a CNAME entry of a RecordSet; the handler reads its target
`Host`. -/
structure CNAME_Record where
  Ttl : Nat
  Host : String
deriving DecidableEq

/-- Modelled from the spec: the RecordSet at one owner, grouped by type. The handler
reads only the `CNAME` group; the other groups are payload for the conversions. -/
structure Record where
  A : List String
  AAAA : List String
  TXT : List String
  CNAME : List CNAME_Record
  NS : List String
  MX : List String
  SRV : List String
  SOA : List String
  CAA : List String
deriving DecidableEq

/-- The question of a message (`dns.Question`). -/
structure Question where
  Name : String
  Qtype : String
deriving DecidableEq

/-- The fields of `dns.Msg` that the handler and `SetReply` touch. -/
structure Msg where
  Id : Nat
  Response : Bool
  Opcode : Int
  Authoritative : Bool
  RecursionDesired : Bool
  RecursionAvailable : Bool
  CheckingDisabled : Bool
  Rcode : Int
  Compress : Bool
  Question : List Question
  Answer : List RR
  Extra : List RR
deriving DecidableEq

/-- The zero value `new(dns.Msg)`. -/
def Msg.new : Msg :=
  ⟨0, false, 0, false, false, false, false, 0, false, [], [], []⟩

/-- The response codes and the opcode of the `dns` package used by the handler. -/
def RcodeSuccess : Int := 0

def RcodeServerFailure : Int := 2

def RcodeNameError : Int := 3

def RcodeNotImplemented : Int := 4

def OpcodeQuery : Int := 0

/-- The library method `(*dns.Msg).SetReply`: a reply skeleton for `request`. -/
def Msg.SetReply (m : Msg) (request : Msg) : Msg :=
  let m := { m with Id := request.Id, Response := true, Opcode := request.Opcode }
  let m := if m.Opcode = OpcodeQuery then
      { m with RecursionDesired := request.RecursionDesired,
               CheckingDisabled := request.CheckingDisabled }
    else m
  let m := { m with Rcode := RcodeSuccess }
  match request.Question with
  | q :: _ => { m with Question := [q] }
  | [] => m

/-- The library method `(*dns.Msg).SetRcode`: `SetReply`, then the response code. -/
def Msg.SetRcode (m : Msg) (request : Msg) (rcode : Int) : Msg :=
  { m.SetReply request with Rcode := rcode }

/-- The library function `strings.TrimSuffix`. -/
def TrimSuffix (s suffix : String) : String :=
  if suffix.data.isSuffixOf s.data then
    ⟨s.data.take (s.data.length - suffix.data.length)⟩
  else s

/-- The `request.Request` built at the top of `ServeDNS`; its writer `W` is the
transport, whose calls are recorded as events. -/
structure Request where
  Req : Msg
deriving DecidableEq

/-- The per-type conversions of the record store. -/
inductive Conv where
  | A | AAAA | CNAME | TXT | NS | MX | SRV | SOA | CAA
deriving DecidableEq

/-- The calls `ServeDNS` makes to its collaborators and to the transport. -/
inductive Event where
  | LoadZones
  | NextOrFailure (qname : String) (r : Msg)
  | load (zone : String)
  | AXFR (z : Zone)
  | Out (r : Msg) (ch : List Envelope)
  | Println (s : String)
  | Hijack
  | findLocation (qname : String) (z : Zone)
  | get (location : String) (z : Zone)
  | conv (c : Conv) (qname : String) (z : Zone) (record : Record)
  | WriteMsg (m : Msg)
deriving DecidableEq

/-- The packages the handler imports (`plugin`, `request`, `dns`, `time`), as far as it
uses them. -/
structure Lib where
  /-- The `state.Name()` of the request, and its `state.Type()` (here `QType`). -/
  Name : Request → String
  QType : Request → String
  /-- The duration `time.Since(t)` observed by this call. -/
  Since : Int → Int
  /-- The longest match `plugin.Zones(zones).Matches(qname)`, `""` when none matches. -/
  Matches : List String → String → String
  /-- The result of `plugin.NextOrFailure(qname, redis.Next, ctx, w, r)`. -/
  NextOrFailure : String → Msg → Int × Option String
  /-- The wire length `dns.Len(r)`. -/
  Len : RR → Int
  /-- The error returned by `tr.Out(w, r, ch)` for the envelopes offered on `ch`. -/
  Out : Msg → List Envelope → Option String
  /-- The message after `state.SizeAndDo(m)`, and the result of `state.Scrub(m)`. -/
  SizeAndDo : Request → Msg → Msg
  Scrub : Request → Msg → Msg

/-- The receiver `redis` and the methods and constants of the package that are defined
outside handler.go. -/
structure Redis where
  Zones : List String
  LastZoneUpdate : Int
  zoneUpdateTime : Int
  /-- Modelled from the spec: `LoadZones()` refreshes the zone list; this is `Zones`
  after it returns. -/
  reloadedZones : List String
  /-- The package constant `transferLength`. -/
  transferLength : Int
  load : String → Option Zone
  AXFR : Zone → List RR
  findLocation : String → Zone → String
  get : String → Zone → Record
  A : String → Zone → Record → List RR × List RR
  AAAA : String → Zone → Record → List RR × List RR
  CNAME : String → Zone → Record → List RR × List RR
  TXT : String → Zone → Record → List RR × List RR
  NS : String → Zone → Record → List RR × List RR
  MX : String → Zone → Record → List RR × List RR
  SRV : String → Zone → Record → List RR × List RR
  SOA : String → Zone → Record → List RR × List RR
  CAA : String → Zone → Record → List RR × List RR

/-- What a call of `ServeDNS` does and returns: the calls it makes, in order, and its
`(int, error)` result. -/
structure Outcome where
  trace : List Event
  rcode : Int
  err : Option String
deriving DecidableEq

/-! ## The AXFR producer (handler.go, lines 44-59) -/

/-- The Go slice expression `records[j:i]`. -/
def slice (records : List RR) (j i : Nat) : List RR :=
  (records.take i).drop j

/-- The `for i, r := range records` loop of the producer goroutine. The arguments are
the records still to be visited, the index `i` of the first of them, the loop
variables `j` and `l`, and the envelopes sent on `ch` so far (oldest first). The result
is the final value of `j` and the envelopes sent by the loop. -/
def producerLoop (Len : RR → Int) (transferLength : Int) (records : List RR) :
    List RR → Nat → Nat → Int → List Envelope → Nat × List Envelope
  | [], _, j, _, ch => (j, ch)
  | r :: rest, i, j, l, ch =>
    let l := l + Len r
    if l > transferLength then
      producerLoop Len transferLength records rest (i + 1) i 0 (ch ++ [⟨slice records j i⟩])
    else
      producerLoop Len transferLength records rest (i + 1) j l ch

/-- The producer goroutine: the envelopes it sends on the channel, in the order sent,
up to `close(ch)`. -/
def producer (Len : RR → Int) (transferLength : Int) (records : List RR) : List Envelope :=
  let (j, ch) := producerLoop Len transferLength records records 0 0 0 []
  if j < records.length then ch ++ [⟨records.drop j⟩] else ch

/-! ## The handler (handler.go, lines 16-154) -/

/-- The message built by `errorResponse` before size adaptation (lines 146-148). -/
def errorMsg (state : Request) (rcode : Int) : Msg :=
  { Msg.new.SetRcode state.Req rcode with
    Authoritative := true, RecursionAvailable := false, Compress := true }

/-- The method `errorResponse` (lines 145-154). -/
def errorResponse (lib : Lib) (state : Request) (_zone : String) (rcode : Int)
    (err : Option String) : Outcome :=
  let m := errorMsg state rcode
  let m := lib.SizeAndDo state m
  ⟨[.WriteMsg m], RcodeSuccess, err⟩

/-- The `switch qtype` of lines 79-111: the conversion calls made and the
`(answers, extras)` obtained, or `none` for the `default` branch. -/
def switchQtype (redis : Redis) (qtype qname : String) (z : Zone) (record : Record) :
    Option (List Event × List RR × List RR) :=
  if qtype = "A" then
    if record.CNAME.length > 0 then
      let (answers2, extras2) := redis.CNAME qname z record
      some ([.conv .CNAME qname z record], [] ++ answers2, [] ++ extras2)
    else
      some ([.conv .A qname z record], redis.A qname z record)
  else if qtype = "AAAA" then some ([.conv .AAAA qname z record], redis.AAAA qname z record)
  else if qtype = "CNAME" then some ([.conv .CNAME qname z record], redis.CNAME qname z record)
  else if qtype = "TXT" then some ([.conv .TXT qname z record], redis.TXT qname z record)
  else if qtype = "NS" then some ([.conv .NS qname z record], redis.NS qname z record)
  else if qtype = "MX" then some ([.conv .MX qname z record], redis.MX qname z record)
  else if qtype = "SRV" then some ([.conv .SRV qname z record], redis.SRV qname z record)
  else if qtype = "SOA" then some ([.conv .SOA qname z record], redis.SOA qname z record)
  else if qtype = "CAA" then some ([.conv .CAA qname z record], redis.CAA qname z record)
  else none

/-- The loop `for _, CNAMERecord := range record.CNAME` of lines 122-133, threading the
calls made and the message `m`. -/
def chaseLoop (redis : Redis) (z : Zone) : List CNAME_Record → List Event × Msg → List Event × Msg
  | [], acc => acc
  | CNAMERecord :: rest, (t, m) =>
    let query := TrimSuffix CNAMERecord.Host ("." ++ z.Name)
    let records := redis.get query z
    let (answersN, extrasN) := redis.A CNAMERecord.Host z records
    chaseLoop redis z rest
      (t ++ [.Println CNAMERecord.Host, .get query z, .conv .A CNAMERecord.Host z records],
       { m with Answer := m.Answer ++ answersN, Extra := m.Extra ++ extrasN })

/-- The staleness check of lines 22-24: the call made (if any) and the zone list in force
afterwards. -/
def reload (lib : Lib) (redis : Redis) : List Event × List String :=
  if lib.Since redis.LastZoneUpdate > redis.zoneUpdateTime then
    ([.LoadZones], redis.reloadedZones)
  else
    ([], redis.Zones)

/-- The handler `ServeDNS` (lines 16-140). -/
def ServeDNS (lib : Lib) (redis : Redis) (r : Msg) : Outcome :=
  let state : Request := ⟨r⟩
  let qname := lib.Name state
  let qtype := lib.QType state
  let (t, Zones) := reload lib redis
  let zone := lib.Matches Zones qname
  if zone = "" then
    let (rcode, err) := lib.NextOrFailure qname r
    ⟨t ++ [.NextOrFailure qname r], rcode, err⟩
  else
    let t := t ++ [.load zone]
    match redis.load zone with
    | none =>
      let o := errorResponse lib state zone RcodeServerFailure none
      ⟨t ++ o.trace, o.rcode, o.err⟩
    | some z =>
      if qtype = "AXFR" then
        let records := redis.AXFR z
        let ch := producer lib.Len redis.transferLength records
        let t := t ++ [.AXFR z, .Out r ch]
        let t := match lib.Out r ch with
          | some err => t ++ [.Println err]
          | none => t
        ⟨t ++ [.Hijack], RcodeSuccess, none⟩
      else
        let location := redis.findLocation qname z
        let t := t ++ [.findLocation qname z]
        if location.length = 0 then
          let o := errorResponse lib state zone RcodeNameError none
          ⟨t ++ o.trace, o.rcode, o.err⟩
        else
          let record := redis.get location z
          let t := t ++ [.get location z]
          match switchQtype redis qtype qname z record with
          | none =>
            let o := errorResponse lib state zone RcodeNotImplemented none
            ⟨t ++ o.trace, o.rcode, o.err⟩
          | some (tc, answers, extras) =>
            let t := t ++ tc
            let m := Msg.new.SetReply r
            let m := { m with Authoritative := true, RecursionAvailable := false,
                              Compress := true }
            let m := { m with Answer := m.Answer ++ answers, Extra := m.Extra ++ extras }
            let (t, m) := if record.CNAME.length > 0 then chaseLoop redis z record.CNAME (t, m)
              else (t, m)
            let m := lib.SizeAndDo state m
            let m := lib.Scrub state m
            ⟨t ++ [.WriteMsg m], RcodeSuccess, none⟩

/-! ## Observations on envelopes and traces -/

/-- The cumulative record length of an envelope: the sum of `dns.Len` over its records. -/
def cumLen (Len : RR → Int) (e : Envelope) : Int :=
  (e.RR.map Len).sum

/-- The cumulative length of the records of an envelope after its first one. -/
def tailLen (Len : RR → Int) (e : Envelope) : Int :=
  (e.RR.tail.map Len).sum

/-- The records carried by a sequence of envelopes, concatenated in the order sent. -/
def concatRR (ch : List Envelope) : List RR :=
  (ch.map Envelope.RR).flatten

/-- Calls of the next handler. -/
def Event.isNext : Event → Bool
  | .NextOrFailure _ _ => true
  | _ => false

/-- Calls of `WriteMsg`. -/
def Event.isWriteMsg : Event → Bool
  | .WriteMsg _ => true
  | _ => false

/-- Calls of `redis.load`. -/
def Event.isLoad : Event → Bool
  | .load _ => true
  | _ => false

/-- The calls of a zone transfer: `redis.AXFR`, `tr.Out` and `w.Hijack`. -/
def Event.isTransfer : Event → Bool
  | .AXFR _ => true
  | .Out _ _ => true
  | .Hijack => true
  | _ => false

/-- Calls of `redis.findLocation`. -/
def Event.isFindLocation : Event → Bool
  | .findLocation _ _ => true
  | _ => false

/-- Calls of `redis.get`. -/
def Event.isGet : Event → Bool
  | .get _ _ => true
  | _ => false

/-- Calls of a per-type conversion. -/
def Event.isConv : Event → Bool
  | .conv _ _ _ _ => true
  | _ => false

/-- The messages written to the transport with `WriteMsg`, in order. -/
def written : List Event → List Msg
  | [] => []
  | .WriteMsg m :: t => m :: written t
  | _ :: t => written t

/-! ## The response content in the words of the specification -/

/-- The reply skeleton of lines 113-118, carrying `answers` and `extras`. -/
def replyMsg (r : Msg) (answers extras : List RR) : Msg :=
  { Msg.new.SetReply r with
    Authoritative := true, RecursionAvailable := false, Compress := true,
    Answer := answers, Extra := extras }

/-- The name of the query type served by a conversion. -/
def Conv.name : Conv → String
  | .A => "A"
  | .AAAA => "AAAA"
  | .CNAME => "CNAME"
  | .TXT => "TXT"
  | .NS => "NS"
  | .MX => "MX"
  | .SRV => "SRV"
  | .SOA => "SOA"
  | .CAA => "CAA"

/-- The conversion method of the record store named by `c`. -/
def Redis.convert (redis : Redis) : Conv → String → Zone → Record → List RR × List RR
  | .A => redis.A
  | .AAAA => redis.AAAA
  | .CNAME => redis.CNAME
  | .TXT => redis.TXT
  | .NS => redis.NS
  | .MX => redis.MX
  | .SRV => redis.SRV
  | .SOA => redis.SOA
  | .CAA => redis.CAA

/-- The dispatched conversion: the same-named one, except `CNAME` for type `A` when the
RecordSet has CNAME records. -/
def dispatched (c : Conv) (rs : Record) : Conv :=
  if c = .A ∧ rs.CNAME ≠ [] then .CNAME else c

/-- The location looked up for a CNAME record: its `Host` with the suffix
`"." + z.Name` removed if present, and unchanged otherwise. -/
def chaseLocation (z : Zone) (c : CNAME_Record) : String :=
  TrimSuffix c.Host ("." ++ z.Name)

/-- The conversion result `A(c.Host, z, get(loc, z))` of the chase of one CNAME record. -/
def chased (redis : Redis) (z : Zone) (c : CNAME_Record) : List RR × List RR :=
  redis.A c.Host z (redis.get (chaseLocation z c) z)

/-- The answers appended by the chase, for each CNAME record in order. -/
def chasedAnswers (redis : Redis) (z : Zone) (cs : List CNAME_Record) : List RR :=
  (cs.map fun c => (chased redis z c).1).flatten

/-- The extras appended by the chase, for each CNAME record in order. -/
def chasedExtras (redis : Redis) (z : Zone) (cs : List CNAME_Record) : List RR :=
  (cs.map fun c => (chased redis z c).2).flatten

/-- The calls of the chase: per CNAME record one `println`, one store lookup and one
`A` conversion. -/
def chaseEvents (redis : Redis) (z : Zone) (cs : List CNAME_Record) : List Event :=
  (cs.map fun c =>
    [Event.Println c.Host, Event.get (chaseLocation z c) z,
     Event.conv .A c.Host z (redis.get (chaseLocation z c) z)]).flatten

/-! ## A sample deployment -/

/-- The zone of the sample deployment. -/
def exampleZone : Zone := ⟨"example.com.", ["www", "alias", "target", "loop"]⟩

/-- A RecordSet with no record. -/
def emptyRecord : Record := ⟨[], [], [], [], [], [], [], [], []⟩

/-- Sample collaborators: the query name and type are read from the question, a zone
matches when it is a suffix of the query name, the zone list is never stale, transfers
succeed, and size adaptation leaves the message as it is. -/
def exampleLib : Lib where
  Name := fun state => match state.Req.Question with
    | q :: _ => q.Name
    | [] => "."
  QType := fun state => match state.Req.Question with
    | q :: _ => q.Qtype
    | [] => ""
  Since := fun _ => 0
  Matches := fun zones qname => (zones.filter fun z => z.data.isSuffixOf qname.data).headD ""
  NextOrFailure := fun _ _ => (RcodeServerFailure, some "no next plugin found")
  Len := fun r => 11 + r.Name.length + r.Rdata.length
  Out := fun _ _ => none
  SizeAndDo := fun _ m => m
  Scrub := fun _ m => m

/-- A sample record store: the zone `example.com.` with owners `www` (A), `alias` (CNAME to
`target`), `target` (A) and `loop` (A data and a CNAME to itself); the zone `broken.org.`
is configured but cannot be loaded. -/
def exampleRedis : Redis where
  Zones := ["example.com.", "broken.org."]
  LastZoneUpdate := 0
  zoneUpdateTime := 10
  reloadedZones := ["example.com."]
  transferLength := 1000
  load := fun zone => if zone = "example.com." then some exampleZone else none
  AXFR := fun _ => []
  findLocation := fun qname z =>
    if z.Locations.contains (TrimSuffix qname ("." ++ z.Name)) then
      TrimSuffix qname ("." ++ z.Name)
    else ""
  get := fun location _ =>
    if location = "www" then { emptyRecord with A := ["1.2.3.4"] }
    else if location = "alias" then { emptyRecord with CNAME := [⟨300, "target.example.com."⟩] }
    else if location = "target" then { emptyRecord with A := ["5.6.7.8"] }
    else if location = "loop" then
      { emptyRecord with A := ["9.9.9.9"], CNAME := [⟨300, "loop.example.com."⟩] }
    else emptyRecord
  A := fun qname _ record => (record.A.map fun ip => ⟨qname, "A", ip⟩, [])
  AAAA := fun qname _ record => (record.AAAA.map fun ip => ⟨qname, "AAAA", ip⟩, [])
  CNAME := fun qname _ record => (record.CNAME.map fun c => ⟨qname, "CNAME", c.Host⟩, [])
  TXT := fun qname _ record => (record.TXT.map fun x => ⟨qname, "TXT", x⟩, [])
  NS := fun qname _ record => (record.NS.map fun x => ⟨qname, "NS", x⟩, [])
  MX := fun qname _ record => (record.MX.map fun x => ⟨qname, "MX", x⟩, [])
  SRV := fun qname _ record => (record.SRV.map fun x => ⟨qname, "SRV", x⟩, [])
  SOA := fun qname _ record => (record.SOA.map fun x => ⟨qname, "SOA", x⟩, [])
  CAA := fun qname _ record => (record.CAA.map fun x => ⟨qname, "CAA", x⟩, [])

/-- A query message for `(qname, qtype)`. -/
def query (qname qtype : String) : Msg :=
  { Msg.new with Id := 7, RecursionDesired := true, Question := [⟨qname, qtype⟩] }

/-- A size adaptation in the manner of `request.SizeAndDo`: when the request carries an
OPT record (an EDNS0 query) and the reply has none, the request's OPT record is attached
to the Extra section of the reply; otherwise the reply is left as it is. -/
def attachOPT (state : Request) (m : Msg) : Msg :=
  match state.Req.Extra.find? fun rr => rr.Rrtype = "OPT" with
  | none => m
  | some o =>
    if m.Extra.any fun rr => rr.Rrtype = "OPT" then m
    else { m with Extra := m.Extra ++ [o] }

/-- The sample collaborators with `attachOPT` as size adaptation. -/
def ednsLib : Lib :=
  { exampleLib with SizeAndDo := attachOPT }

/-- The OPT pseudo-record of an EDNS0 query. -/
def optRR : RR := ⟨".", "OPT", "udp 4096"⟩

/-- An EDNS0 query message for `(qname, qtype)`. -/
def ednsQuery (qname qtype : String) : Msg :=
  { query qname qtype with Extra := [optRR] }

/-- Sample records of a transfer. -/
def txt1 : RR := ⟨"a.example.com.", "TXT", "first"⟩

def txt2 : RR := ⟨"b.example.com.", "TXT", "second"⟩

def txt3 : RR := ⟨"c.example.com.", "TXT", "third"⟩

def bigTxt : RR := ⟨"big.example.com.", "TXT", "long"⟩

def nsRR : RR := ⟨"example.com.", "NS", "ns1.example.com."⟩

/-- Sample wire lengths: 1200 bytes for `bigTxt`, 600 for the other TXT records, 60 for the
rest. -/
def sampleLen (r : RR) : Int :=
  if r = bigTxt then 1200 else if r.Rrtype = "TXT" then 600 else 60

/-! ## Theorems: the AXFR producer -/

theorem concatRR_append (ch₁ ch₂ : List Envelope) :
    concatRR (ch₁ ++ ch₂) = concatRR ch₁ ++ concatRR ch₂ := by
  simp [concatRR]

theorem concatRR_singleton (e : Envelope) : concatRR [e] = e.RR := by
  simp [concatRR]

theorem take_append_slice (records : List RR) (j i : Nat) (h : j ≤ i) :
    records.take j ++ slice records j i = records.take i := by
  have h1 : records.take j = (records.take i).take j := by
    rw [List.take_take, Nat.min_eq_left h]
  rw [h1, slice, List.take_append_drop]

/-- Loop invariant of the producer: the envelopes sent so far carry exactly
`records[:j]`. -/
theorem producerLoop_concat (Len : RR → Int) (transferLength : Int) (records : List RR) :
    ∀ (rest : List RR) (i j : Nat) (l : Int) (ch : List Envelope),
      j ≤ i → concatRR ch = records.take j →
      concatRR (producerLoop Len transferLength records rest i j l ch).2
        = records.take (producerLoop Len transferLength records rest i j l ch).1 := by
  intro rest
  induction rest with
  | nil => intro i j l ch _ hc; simpa [producerLoop] using hc
  | cons r rest ih =>
    intro i j l ch hj hc
    simp only [producerLoop]
    split
    · apply ih
      · exact Nat.le_succ i
      · rw [concatRR_append, concatRR_singleton, hc]
        exact take_append_slice records j i hj
    · exact ih (i + 1) j _ ch (Nat.le_succ_of_le hj) hc

/-- C1. AXFR chunking is lossless and order-preserving: for every record sequence
(the empty one included), every per-record length function and every threshold, the
records of the envelopes the producer sends, concatenated in the order sent, are exactly
`records`. -/
theorem producer_lossless (Len : RR → Int) (transferLength : Int) (records : List RR) :
    concatRR (producer Len transferLength records) = records := by
  have h := producerLoop_concat Len transferLength records records 0 0 0 []
    (Nat.le_refl 0) (by simp [concatRR])
  unfold producer
  generalize producerLoop Len transferLength records records 0 0 0 [] = p at h
  obtain ⟨j, ch⟩ := p
  simp only at h ⊢
  split
  · rw [concatRR_append, concatRR_singleton, h, List.take_append_drop]
  · rename_i hlt
    rw [h, List.take_of_length_le (Nat.le_of_not_lt hlt)]

/-- C2 (failing input). With threshold 1000 and three records of 600 bytes each, the
second envelope holds two records whose cumulative length is 1200: it exceeds the
threshold although neither of its records does. -/
theorem producer_envelope_exceeds_threshold :
    producer sampleLen 1000 [txt1, txt2, txt3] = [⟨[txt1]⟩, ⟨[txt2, txt3]⟩] ∧
    cumLen sampleLen ⟨[txt2, txt3]⟩ = 1200 ∧
    sampleLen txt2 = 600 ∧ sampleLen txt3 = 600 ∧
    ¬ ∀ e ∈ producer sampleLen 1000 [txt1, txt2, txt3],
        cumLen sampleLen e ≤ 1000 ∨ ∃ r, e.RR = [r] ∧ sampleLen r > 1000 := by
  refine ⟨by decide, by decide, by decide, by decide, ?_⟩
  intro h
  have h2 := h ⟨[txt2, txt3]⟩ (by decide)
  rcases h2 with h2 | ⟨r, hr, _⟩
  · exact absurd h2 (by decide)
  · simp at hr

/-- C10 (failing input). With threshold 1000 and a first record of 1200 bytes, the first
envelope the producer sends is `records[0:0]`, which holds no record. -/
theorem producer_sends_empty_envelope :
    sampleLen bigTxt = 1200 ∧
    producer sampleLen 1000 [bigTxt, nsRR] = [⟨[]⟩, ⟨[bigTxt, nsRR]⟩] ∧
    ¬ ∀ e ∈ producer sampleLen 1000 [bigTxt, nsRR], e.RR ≠ [] := by
  refine ⟨by decide, by decide, ?_⟩
  intro h
  exact h ⟨[]⟩ (by decide) rfl

theorem slice_succ (pre rest : List RR) (r : RR) (j : Nat) (hj : j ≤ pre.length) :
    slice (pre ++ r :: rest) j (pre.length + 1) = slice (pre ++ r :: rest) j pre.length ++ [r] := by
  have h1 : (pre ++ r :: rest).take (pre.length + 1) = pre ++ [r] := by
    have : pre ++ r :: rest = (pre ++ [r]) ++ rest := by simp
    rw [this]
    exact List.take_left' (by simp)
  have h2 : (pre ++ r :: rest).take pre.length = pre := List.take_left pre (r :: rest)
  rw [slice, slice, h1, h2, List.drop_append_of_le_length hj]

theorem sum_tail_append_le (Len : RR → Int) (xs : List RR) (r : RR) (l : Int)
    (hLen : ∀ r, 0 ≤ Len r) (h : (xs.tail.map Len).sum ≤ l) :
    (((xs ++ [r]).tail).map Len).sum ≤ l + Len r := by
  cases xs with
  | nil =>
    simp at h ⊢
    have := hLen r
    omega
  | cons x xs =>
    simp at h ⊢
    omega

/-- Loop invariant for the size of the envelopes: the records collected since the last
cut, not counting the first of them, have cumulative length at most `l`, and `l` is at
most the threshold. -/
theorem producerLoop_tail_bound (Len : RR → Int) (transferLength : Int)
    (hLen : ∀ r, 0 ≤ Len r) (hT : 0 ≤ transferLength) :
    ∀ (rest pre : List RR) (j : Nat) (l : Int) (ch : List Envelope),
      j ≤ pre.length →
      (((slice (pre ++ rest) j pre.length).tail).map Len).sum ≤ l → l ≤ transferLength →
      (∀ e ∈ ch, tailLen Len e ≤ transferLength) →
      ((((pre ++ rest).drop
          (producerLoop Len transferLength (pre ++ rest) rest pre.length j l ch).1).tail).map
            Len).sum ≤ transferLength ∧
      ∀ e ∈ (producerLoop Len transferLength (pre ++ rest) rest pre.length j l ch).2,
        tailLen Len e ≤ transferLength := by
  intro rest
  induction rest with
  | nil =>
    intro pre j l ch _ hs hl hch
    simp only [producerLoop, List.append_nil] at hs ⊢
    refine ⟨?_, hch⟩
    rw [slice, List.take_length] at hs
    omega
  | cons r rest ih =>
    intro pre j l ch hj hs hl hch
    have hrec : pre ++ r :: rest = (pre ++ [r]) ++ rest := by simp
    have hlen : (pre ++ [r]).length = pre.length + 1 := by simp
    simp only [producerLoop]
    split
    · have := ih (pre ++ [r]) pre.length 0 (ch ++ [⟨slice (pre ++ r :: rest) j pre.length⟩])
        (by simp) (by
          rw [← hrec, hlen, slice_succ pre rest r pre.length (Nat.le_refl _)]
          simp [slice, List.take_left pre (r :: rest)]) hT (by
          intro e he
          rcases List.mem_append.mp he with he | he
          · exact hch e he
          · rw [List.mem_singleton.mp he]
            simp only [tailLen]
            omega)
      rw [← hrec, hlen] at this
      exact this
    · rename_i hcut
      have := ih (pre ++ [r]) j (l + Len r) ch (by simp; omega) (by
          rw [← hrec, hlen, slice_succ pre rest r j hj]
          exact sum_tail_append_le Len _ r l hLen hs) (by omega) hch
      rw [← hrec, hlen] at this
      exact this

/-- The bound the producer does keep: when lengths and threshold are non-negative, the
records of every envelope it sends, not counting the first one, have cumulative length
at most the threshold. -/
theorem producer_tail_bound (Len : RR → Int) (transferLength : Int) (records : List RR)
    (hLen : ∀ r, 0 ≤ Len r) (hT : 0 ≤ transferLength) :
    ∀ e ∈ producer Len transferLength records, tailLen Len e ≤ transferLength := by
  have h := producerLoop_tail_bound Len transferLength hLen hT records [] 0 0 []
    (Nat.le_refl 0) (by simp [slice]) hT (by simp)
  simp only [List.nil_append, List.length_nil] at h
  unfold producer
  generalize producerLoop Len transferLength records records 0 0 0 [] = p at h
  obtain ⟨j, ch⟩ := p
  simp only at h ⊢
  split
  · intro e he
    rcases List.mem_append.mp he with he | he
    · exact h.2 e he
    · rw [List.mem_singleton.mp he]
      exact h.1
  · exact h.2

/-! ## Theorems: library functions and trace observations -/

theorem TrimSuffix_append (p suffix : String) : TrimSuffix (p ++ suffix) suffix = p := by
  unfold TrimSuffix
  have hs : suffix.data.isSuffixOf (p ++ suffix).data = true := by
    rw [List.isSuffixOf_iff_suffix]
    exact ⟨p.data, by simp⟩
  rw [if_pos hs]
  apply String.ext
  simp

theorem TrimSuffix_of_not_suffix (s suffix : String)
    (h : ¬ suffix.data <:+ s.data) : TrimSuffix s suffix = s := by
  unfold TrimSuffix
  have hs : ¬ suffix.data.isSuffixOf s.data = true := by
    rw [List.isSuffixOf_iff_suffix]
    exact h
  rw [if_neg hs]

theorem length_ne_zero_of_ne_empty (s : String) (h : s ≠ "") : s.length ≠ 0 := by
  intro h0
  apply h
  have hd : s.data = [] := List.length_eq_zero.mp h0
  exact String.ext hd

theorem errorMsg_fields (state : Request) (rcode : Int) :
    (errorMsg state rcode).Rcode = rcode ∧ (errorMsg state rcode).Answer = [] ∧
    (errorMsg state rcode).Extra = [] ∧ (errorMsg state rcode).Authoritative = true ∧
    (errorMsg state rcode).RecursionAvailable = false ∧
    (errorMsg state rcode).Compress = true := by
  unfold errorMsg Msg.SetRcode Msg.SetReply
  cases state.Req.Question <;> simp [Msg.new] <;> split <;> simp

theorem countP_reload (lib : Lib) (redis : Redis) (p : Event → Bool)
    (hp : p .LoadZones = false) : (reload lib redis).1.countP p = 0 := by
  unfold reload
  split <;> simp [hp]

theorem written_append (t₁ t₂ : List Event) : written (t₁ ++ t₂) = written t₁ ++ written t₂ := by
  induction t₁ with
  | nil => rfl
  | cons e t ih => cases e <;> simp [written, ih]

theorem written_reload (lib : Lib) (redis : Redis) : written (reload lib redis).1 = [] := by
  unfold reload
  split <;> simp [written]

theorem filter_isGet_reload (lib : Lib) (redis : Redis) :
    (reload lib redis).1.filter Event.isGet = [] := by
  unfold reload
  split <;> simp [Event.isGet]

theorem filter_isConv_reload (lib : Lib) (redis : Redis) :
    (reload lib redis).1.filter Event.isConv = [] := by
  unfold reload
  split <;> simp [Event.isConv]

theorem chaseEvents_cons (redis : Redis) (z : Zone) (c : CNAME_Record)
    (cs : List CNAME_Record) :
    chaseEvents redis z (c :: cs) =
      [Event.Println c.Host, Event.get (chaseLocation z c) z,
       Event.conv .A c.Host z (redis.get (chaseLocation z c) z)] ++
        chaseEvents redis z cs := by
  simp [chaseEvents]

theorem filter_isGet_chaseEvents (redis : Redis) (z : Zone) (cs : List CNAME_Record) :
    (chaseEvents redis z cs).filter Event.isGet =
      cs.map fun c => Event.get (chaseLocation z c) z := by
  induction cs with
  | nil => simp [chaseEvents]
  | cons c cs ih =>
    have hcons : chaseEvents redis z (c :: cs) =
        [Event.Println c.Host, Event.get (chaseLocation z c) z,
         Event.conv .A c.Host z (redis.get (chaseLocation z c) z)] ++
          chaseEvents redis z cs := by
      simp [chaseEvents]
    rw [hcons, List.filter_append, ih]
    simp [List.filter, Event.isGet]

theorem filter_isConv_chaseEvents (redis : Redis) (z : Zone) (cs : List CNAME_Record) :
    (chaseEvents redis z cs).filter Event.isConv =
      cs.map fun c => Event.conv .A c.Host z (redis.get (chaseLocation z c) z) := by
  induction cs with
  | nil => simp [chaseEvents]
  | cons c cs ih =>
    rw [chaseEvents_cons, List.filter_append, ih]
    simp [List.filter, Event.isConv]

theorem written_chaseEvents (redis : Redis) (z : Zone) (cs : List CNAME_Record) :
    written (chaseEvents redis z cs) = [] := by
  induction cs with
  | nil => simp [chaseEvents, written]
  | cons c cs ih =>
    rw [chaseEvents_cons, written_append, ih]
    simp [written]

theorem conv_A_mem_chaseEvents (redis : Redis) (z : Zone) (cs : List CNAME_Record)
    (qn : String) (z' : Zone) (rs' : Record)
    (h : Event.conv .A qn z' rs' ∈ chaseEvents redis z cs) :
    ∃ c ∈ cs, qn = c.Host ∧ z' = z ∧ rs' = redis.get (chaseLocation z c) z := by
  simp only [chaseEvents, List.mem_flatten, List.mem_map] at h
  obtain ⟨l, ⟨c, hc, rfl⟩, hmem⟩ := h
  simp at hmem
  exact ⟨c, hc, hmem⟩

theorem chaseLoop_eq (redis : Redis) (z : Zone) :
    ∀ (cs : List CNAME_Record) (t : List Event) (m : Msg),
      chaseLoop redis z cs (t, m) =
        (t ++ chaseEvents redis z cs,
         { m with Answer := m.Answer ++ chasedAnswers redis z cs,
                  Extra := m.Extra ++ chasedExtras redis z cs }) := by
  intro cs
  induction cs with
  | nil => intro t m; simp [chaseLoop, chaseEvents, chasedAnswers, chasedExtras]
  | cons c cs ih =>
    intro t m
    simp only [chaseLoop]
    rw [ih]
    simp [chaseEvents, chasedAnswers, chasedExtras, chased, chaseLocation]

theorem switchQtype_supported (redis : Redis) (c : Conv) (qname : String) (z : Zone)
    (rs : Record) :
    switchQtype redis c.name qname z rs =
      some ([.conv (dispatched c rs) qname z rs],
        (redis.convert (dispatched c rs) qname z rs).1,
        (redis.convert (dispatched c rs) qname z rs).2) := by
  cases c <;> simp [switchQtype, Conv.name, dispatched, Redis.convert]
  cases hc : rs.CNAME <;> simp [Redis.convert]

theorem Conv.name_ne_AXFR (c : Conv) : c.name ≠ "AXFR" := by
  cases c <;> simp [Conv.name]

theorem conv_A_mem_chaseEvents_of_mem (redis : Redis) (z : Zone) (cs : List CNAME_Record)
    (c : CNAME_Record) (h : c ∈ cs) :
    Event.conv .A c.Host z (redis.get (chaseLocation z c) z) ∈ chaseEvents redis z cs := by
  simp only [chaseEvents, List.mem_flatten, List.mem_map]
  exact ⟨_, ⟨c, h, rfl⟩, by simp⟩

theorem attachOPT_Rcode (state : Request) (m : Msg) : (attachOPT state m).Rcode = m.Rcode := by
  unfold attachOPT
  split
  · rfl
  · split <;> rfl

theorem attachOPT_Answer (state : Request) (m : Msg) :
    (attachOPT state m).Answer = m.Answer := by
  unfold attachOPT
  split
  · rfl
  · split <;> rfl

theorem dispatched_A_of_CNAME (rs : Record) (h : rs.CNAME ≠ []) :
    dispatched .A rs = .CNAME := by
  simp [dispatched, h]

/-! ## Theorems: the paths of the handler -/

theorem ServeDNS_forward (lib : Lib) (redis : Redis) (r : Msg)
    (h : lib.Matches (reload lib redis).2 (lib.Name ⟨r⟩) = "") :
    ServeDNS lib redis r =
      ⟨(reload lib redis).1 ++ [.NextOrFailure (lib.Name ⟨r⟩) r],
       (lib.NextOrFailure (lib.Name ⟨r⟩) r).1, (lib.NextOrFailure (lib.Name ⟨r⟩) r).2⟩ := by
  unfold ServeDNS
  simp [h]

theorem ServeDNS_load_none (lib : Lib) (redis : Redis) (r : Msg) (zone : String)
    (hz : lib.Matches (reload lib redis).2 (lib.Name ⟨r⟩) = zone) (hne : zone ≠ "")
    (hl : redis.load zone = none) :
    ServeDNS lib redis r =
      ⟨(reload lib redis).1 ++
        [.load zone, .WriteMsg (lib.SizeAndDo ⟨r⟩ (errorMsg ⟨r⟩ RcodeServerFailure))],
       RcodeSuccess, none⟩ := by
  unfold ServeDNS
  simp [hz, hne, hl, errorResponse]

theorem ServeDNS_axfr (lib : Lib) (redis : Redis) (r : Msg) (zone : String) (z : Zone)
    (hz : lib.Matches (reload lib redis).2 (lib.Name ⟨r⟩) = zone) (hne : zone ≠ "")
    (hl : redis.load zone = some z) (hq : lib.QType ⟨r⟩ = "AXFR") :
    ServeDNS lib redis r =
      ⟨((reload lib redis).1 ++ [.load zone] ++
          [.AXFR z, .Out r (producer lib.Len redis.transferLength (redis.AXFR z))] ++
          (match lib.Out r (producer lib.Len redis.transferLength (redis.AXFR z)) with
            | some err => [.Println err]
            | none => [])) ++ [.Hijack],
       RcodeSuccess, none⟩ := by
  unfold ServeDNS
  simp only [hz, hne, hl, hq, if_true, if_false]
  cases lib.Out r (producer lib.Len redis.transferLength (redis.AXFR z)) <;> simp

theorem ServeDNS_nxdomain (lib : Lib) (redis : Redis) (r : Msg) (zone : String) (z : Zone)
    (hz : lib.Matches (reload lib redis).2 (lib.Name ⟨r⟩) = zone) (hne : zone ≠ "")
    (hl : redis.load zone = some z) (hq : lib.QType ⟨r⟩ ≠ "AXFR")
    (hloc : redis.findLocation (lib.Name ⟨r⟩) z = "") :
    ServeDNS lib redis r =
      ⟨(reload lib redis).1 ++
        [.load zone, .findLocation (lib.Name ⟨r⟩) z,
         .WriteMsg (lib.SizeAndDo ⟨r⟩ (errorMsg ⟨r⟩ RcodeNameError))],
       RcodeSuccess, none⟩ := by
  unfold ServeDNS
  simp [hz, hne, hl, hq, hloc, errorResponse]

theorem ServeDNS_notimp (lib : Lib) (redis : Redis) (r : Msg) (zone : String) (z : Zone)
    (hz : lib.Matches (reload lib redis).2 (lib.Name ⟨r⟩) = zone) (hne : zone ≠ "")
    (hl : redis.load zone = some z) (hq : lib.QType ⟨r⟩ ≠ "AXFR")
    (hloc : redis.findLocation (lib.Name ⟨r⟩) z ≠ "")
    (hsw : switchQtype redis (lib.QType ⟨r⟩) (lib.Name ⟨r⟩) z
      (redis.get (redis.findLocation (lib.Name ⟨r⟩) z) z) = none) :
    ServeDNS lib redis r =
      ⟨(reload lib redis).1 ++
        [.load zone, .findLocation (lib.Name ⟨r⟩) z,
         .get (redis.findLocation (lib.Name ⟨r⟩) z) z,
         .WriteMsg (lib.SizeAndDo ⟨r⟩ (errorMsg ⟨r⟩ RcodeNotImplemented))],
       RcodeSuccess, none⟩ := by
  have hlen := length_ne_zero_of_ne_empty _ hloc
  unfold ServeDNS
  simp [hz, hne, hl, hq, hlen, hsw, errorResponse]

theorem ServeDNS_answer (lib : Lib) (redis : Redis) (r : Msg) (zone : String) (z : Zone)
    (tc : List Event) (answers extras : List RR)
    (hz : lib.Matches (reload lib redis).2 (lib.Name ⟨r⟩) = zone) (hne : zone ≠ "")
    (hl : redis.load zone = some z) (hq : lib.QType ⟨r⟩ ≠ "AXFR")
    (hloc : redis.findLocation (lib.Name ⟨r⟩) z ≠ "")
    (hsw : switchQtype redis (lib.QType ⟨r⟩) (lib.Name ⟨r⟩) z
      (redis.get (redis.findLocation (lib.Name ⟨r⟩) z) z) = some (tc, answers, extras)) :
    ServeDNS lib redis r =
      ⟨(chaseLoop redis z (redis.get (redis.findLocation (lib.Name ⟨r⟩) z) z).CNAME
          ((reload lib redis).1 ++
            [.load zone, .findLocation (lib.Name ⟨r⟩) z,
             .get (redis.findLocation (lib.Name ⟨r⟩) z) z] ++ tc,
           replyMsg r answers extras)).1 ++
        [.WriteMsg (lib.Scrub ⟨r⟩ (lib.SizeAndDo ⟨r⟩
          (chaseLoop redis z (redis.get (redis.findLocation (lib.Name ⟨r⟩) z) z).CNAME
            ((reload lib redis).1 ++
              [.load zone, .findLocation (lib.Name ⟨r⟩) z,
               .get (redis.findLocation (lib.Name ⟨r⟩) z) z] ++ tc,
             replyMsg r answers extras)).2))],
       RcodeSuccess, none⟩ := by
  have hlen := length_ne_zero_of_ne_empty _ hloc
  have hnil : (Msg.new.SetReply r).Answer = [] ∧ (Msg.new.SetReply r).Extra = [] := by
    unfold Msg.SetReply
    cases r.Question <;> simp [Msg.new] <;> split <;> simp
  unfold ServeDNS
  simp only [hz, hne, hl, hq, hlen, hsw, if_false, hnil.1, hnil.2, List.nil_append]
  cases hc : (redis.get (redis.findLocation (lib.Name ⟨r⟩) z) z).CNAME with
  | nil => simp [chaseLoop, replyMsg]
  | cons c cs => simp [replyMsg]

theorem ServeDNS_supported (lib : Lib) (redis : Redis) (r : Msg) (zone : String) (z : Zone)
    (c : Conv) (qname location : String) (rs : Record)
    (hz : lib.Matches (reload lib redis).2 (lib.Name ⟨r⟩) = zone) (hne : zone ≠ "")
    (hl : redis.load zone = some z) (hq : lib.QType ⟨r⟩ = c.name)
    (hname : lib.Name ⟨r⟩ = qname)
    (hloc : redis.findLocation qname z = location) (hfound : location ≠ "")
    (hrs : redis.get location z = rs) :
    ServeDNS lib redis r =
      ⟨(reload lib redis).1 ++
        [.load zone, .findLocation qname z, .get location z,
         .conv (dispatched c rs) qname z rs] ++
        chaseEvents redis z rs.CNAME ++
        [.WriteMsg (lib.Scrub ⟨r⟩ (lib.SizeAndDo ⟨r⟩ (replyMsg r
          ((redis.convert (dispatched c rs) qname z rs).1 ++ chasedAnswers redis z rs.CNAME)
          ((redis.convert (dispatched c rs) qname z rs).2 ++
            chasedExtras redis z rs.CNAME))))],
       RcodeSuccess, none⟩ := by
  subst hname hloc hrs
  have hax : lib.QType ⟨r⟩ ≠ "AXFR" := by rw [hq]; exact Conv.name_ne_AXFR c
  have hsw := switchQtype_supported redis c (lib.Name ⟨r⟩) z
    (redis.get (redis.findLocation (lib.Name ⟨r⟩) z) z)
  rw [← hq] at hsw
  rw [ServeDNS_answer lib redis r zone z _ _ _ hz hne hl hax hfound hsw, chaseLoop_eq]
  simp [replyMsg]

/-! ## Theorems: the contract of the handler -/

/-- C3. Forwarding when no zone matches: for every query (any name, any type, AXFR
included) whose name matches none of the configured zones, `ServeDNS` makes exactly one
call, to the next handler with the original request (after the optional zone-list
reload), returns exactly what that call returns, writes no message, loads no zone and
starts no transfer. -/
theorem ServeDNS_no_zone_match (lib : Lib) (redis : Redis) (r : Msg)
    (h : lib.Matches (reload lib redis).2 (lib.Name ⟨r⟩) = "") :
    (ServeDNS lib redis r).trace =
      (reload lib redis).1 ++ [.NextOrFailure (lib.Name ⟨r⟩) r] ∧
    ((ServeDNS lib redis r).rcode, (ServeDNS lib redis r).err) =
      lib.NextOrFailure (lib.Name ⟨r⟩) r ∧
    (ServeDNS lib redis r).trace.countP Event.isNext = 1 ∧
    written (ServeDNS lib redis r).trace = [] ∧
    (ServeDNS lib redis r).trace.countP Event.isLoad = 0 ∧
    (ServeDNS lib redis r).trace.countP Event.isTransfer = 0 := by
  rw [ServeDNS_forward lib redis r h]
  simp [written_append, written_reload, written, List.countP_append, countP_reload,
    Event.isNext, Event.isLoad, Event.isTransfer]

/-- C3 at the query `(www.example.org., A)` of the sample deployment, which matches no
zone. -/
theorem ServeDNS_no_zone_match_witness :
    exampleLib.Matches (reload exampleLib exampleRedis).2
        (exampleLib.Name ⟨query "www.example.org." "A"⟩) = "" ∧
    (ServeDNS exampleLib exampleRedis (query "www.example.org." "A")).trace =
      [.NextOrFailure "www.example.org." (query "www.example.org." "A")] ∧
    written (ServeDNS exampleLib exampleRedis (query "www.example.org." "A")).trace = [] :=
  ⟨by decide,
   (ServeDNS_no_zone_match exampleLib exampleRedis (query "www.example.org." "A")
      (by decide)).1,
   (ServeDNS_no_zone_match exampleLib exampleRedis (query "www.example.org." "A")
      (by decide)).2.2.2.1⟩

/-- C4. NXDOMAIN for a missing owner: for every query of a type other than AXFR whose
name matches a zone that loads and for which `findLocation` returns the empty location,
`ServeDNS` writes exactly one message, the size-adapted error message whose response
code is NameError and whose Answer section is empty; `get` and the conversions are
never invoked. -/
theorem ServeDNS_nxdomain_missing_owner (lib : Lib) (redis : Redis) (r : Msg)
    (zone : String) (z : Zone)
    (hz : lib.Matches (reload lib redis).2 (lib.Name ⟨r⟩) = zone) (hne : zone ≠ "")
    (hl : redis.load zone = some z) (hq : lib.QType ⟨r⟩ ≠ "AXFR")
    (hloc : redis.findLocation (lib.Name ⟨r⟩) z = "") :
    written (ServeDNS lib redis r).trace =
      [lib.SizeAndDo ⟨r⟩ (errorMsg ⟨r⟩ RcodeNameError)] ∧
    (errorMsg ⟨r⟩ RcodeNameError).Rcode = RcodeNameError ∧
    (errorMsg ⟨r⟩ RcodeNameError).Answer = [] ∧
    (ServeDNS lib redis r).trace.countP Event.isGet = 0 ∧
    (ServeDNS lib redis r).trace.countP Event.isConv = 0 := by
  rw [ServeDNS_nxdomain lib redis r zone z hz hne hl hq hloc]
  have hf := errorMsg_fields ⟨r⟩ RcodeNameError
  simp [written_append, written_reload, written, List.countP_append, countP_reload,
    Event.isGet, Event.isConv, hf]

/-- C4 at the query `(nosuch.example.com., A)`, whose owner does not exist. -/
theorem ServeDNS_nxdomain_missing_owner_witness :
    exampleRedis.findLocation "nosuch.example.com." exampleZone = "" ∧
    written (ServeDNS exampleLib exampleRedis (query "nosuch.example.com." "A")).trace =
      [errorMsg ⟨query "nosuch.example.com." "A"⟩ RcodeNameError] ∧
    (ServeDNS exampleLib exampleRedis (query "nosuch.example.com." "A")).trace.countP
      Event.isGet = 0 :=
  ⟨by decide,
   (ServeDNS_nxdomain_missing_owner exampleLib exampleRedis
      (query "nosuch.example.com." "A") "example.com." exampleZone (by decide) (by decide)
      (by decide) (by decide) (by decide)).1,
   (ServeDNS_nxdomain_missing_owner exampleLib exampleRedis
      (query "nosuch.example.com." "A") "example.com." exampleZone (by decide) (by decide)
      (by decide) (by decide) (by decide)).2.2.2.1⟩

/-- C5 (amended). CNAME-exclusion rule: for every zone and every owner whose RecordSet
`rs` has a non-empty CNAME group, an A-type query at that owner is answered from the
CNAME conversion of `rs` followed by the chased CNAME targets, and the conversions called
are that CNAME conversion and then, for each CNAME record in order, the A conversion of
the RecordSet that `get` returns at the record's stripped target (the dispatch never
calls the A conversion). Provided `get` returns `rs` at the stripped target of none of
its CNAME records, the A conversion is never applied to `rs`, under any query name and
whatever A data `rs` holds; for a CNAME record at whose stripped target `get` does return
`rs` (such as a CNAME that points at its own owner), the chase applies the A conversion
to `rs` with the target host as query name. -/
theorem ServeDNS_A_query_with_CNAME (lib : Lib) (redis : Redis) (r : Msg) (zone : String)
    (z : Zone) (qname location : String) (rs : Record)
    (hz : lib.Matches (reload lib redis).2 (lib.Name ⟨r⟩) = zone) (hne : zone ≠ "")
    (hl : redis.load zone = some z) (hq : lib.QType ⟨r⟩ = "A")
    (hname : lib.Name ⟨r⟩ = qname)
    (hloc : redis.findLocation qname z = location) (hfound : location ≠ "")
    (hrs : redis.get location z = rs) (hcn : rs.CNAME ≠ []) :
    written (ServeDNS lib redis r).trace =
      [lib.Scrub ⟨r⟩ (lib.SizeAndDo ⟨r⟩ (replyMsg r
        ((redis.CNAME qname z rs).1 ++
          (rs.CNAME.map fun cn =>
            (redis.A cn.Host z (redis.get (TrimSuffix cn.Host ("." ++ z.Name)) z)).1).flatten)
        ((redis.CNAME qname z rs).2 ++
          (rs.CNAME.map fun cn =>
            (redis.A cn.Host z
              (redis.get (TrimSuffix cn.Host ("." ++ z.Name)) z)).2).flatten)))] ∧
    (ServeDNS lib redis r).trace.filter Event.isConv =
      Event.conv .CNAME qname z rs ::
        (rs.CNAME.map fun cn =>
          Event.conv .A cn.Host z (redis.get (TrimSuffix cn.Host ("." ++ z.Name)) z)) ∧
    ((∀ cn ∈ rs.CNAME, redis.get (TrimSuffix cn.Host ("." ++ z.Name)) z ≠ rs) →
      ∀ (qn : String) (z' : Zone), Event.conv .A qn z' rs ∉ (ServeDNS lib redis r).trace) ∧
    (∀ cn ∈ rs.CNAME, redis.get (TrimSuffix cn.Host ("." ++ z.Name)) z = rs →
      Event.conv .A cn.Host z rs ∈ (ServeDNS lib redis r).trace) := by
  rw [ServeDNS_supported lib redis r zone z .A qname location rs hz hne hl hq hname hloc
    hfound hrs, dispatched_A_of_CNAME rs hcn]
  refine ⟨?_, ?_, ?_, ?_⟩
  · simp [written_append, written_reload, written_chaseEvents, written, Redis.convert,
      chasedAnswers, chasedExtras, chased, chaseLocation]
  · simp [List.filter_append, filter_isConv_reload, filter_isConv_chaseEvents, List.filter,
      Event.isConv, chaseLocation]
  · intro hother qn z' hmem
    have hre : Event.conv .A qn z' rs ∉ (reload lib redis).1 := by
      unfold reload
      split <;> simp
    have h : Event.conv .A qn z' rs ∈ chaseEvents redis z rs.CNAME := by
      simpa [hre] using hmem
    obtain ⟨cn, hcn', _, _, h3⟩ := conv_A_mem_chaseEvents redis z rs.CNAME qn z' rs h
    exact hother cn hcn' h3.symm
  · intro cn hcn' hsame
    have h := conv_A_mem_chaseEvents_of_mem redis z rs.CNAME cn hcn'
    rw [chaseLocation, hsame] at h
    simp [h]

/-- C5 (amended) at the query `(alias.example.com., A)`: the CNAME record followed by the
chased A record of its target, and no A conversion of the RecordSet of `alias`. -/
theorem ServeDNS_A_query_with_CNAME_witness :
    written (ServeDNS exampleLib exampleRedis (query "alias.example.com." "A")).trace =
      [replyMsg (query "alias.example.com." "A")
        [⟨"alias.example.com.", "CNAME", "target.example.com."⟩,
         ⟨"target.example.com.", "A", "5.6.7.8"⟩] []] ∧
    Event.conv .A "alias.example.com." exampleZone (exampleRedis.get "alias" exampleZone) ∉
      (ServeDNS exampleLib exampleRedis (query "alias.example.com." "A")).trace :=
  ⟨(ServeDNS_A_query_with_CNAME exampleLib exampleRedis (query "alias.example.com." "A")
      "example.com." exampleZone "alias.example.com." "alias"
      (exampleRedis.get "alias" exampleZone) (by decide) (by decide) (by decide)
      (by decide) (by decide) (by decide) (by decide) rfl (by decide)).1,
   (ServeDNS_A_query_with_CNAME exampleLib exampleRedis (query "alias.example.com." "A")
      "example.com." exampleZone "alias.example.com." "alias"
      (exampleRedis.get "alias" exampleZone) (by decide) (by decide) (by decide)
      (by decide) (by decide) (by decide) (by decide) rfl (by decide)).2.2.1
      (by decide) "alias.example.com." exampleZone⟩

/-- C5 (counterexample). At the owner `loop`, whose RecordSet holds A data and a CNAME
record whose target is the owner itself, an A-type query makes the chase fetch the
queried owner's own RecordSet and apply the A conversion to it: the response carries a
direct A answer from that owner. -/
theorem ServeDNS_A_conversion_at_self_alias :
    exampleLib.QType ⟨query "loop.example.com." "A"⟩ = "A" ∧
    exampleRedis.findLocation "loop.example.com." exampleZone = "loop" ∧
    (exampleRedis.get "loop" exampleZone).CNAME ≠ [] ∧
    (ServeDNS exampleLib exampleRedis (query "loop.example.com." "A")).trace.filter
      Event.isGet = [.get "loop" exampleZone, .get "loop" exampleZone] ∧
    Event.conv .A "loop.example.com." exampleZone (exampleRedis.get "loop" exampleZone) ∈
      (ServeDNS exampleLib exampleRedis (query "loop.example.com." "A")).trace ∧
    written (ServeDNS exampleLib exampleRedis (query "loop.example.com." "A")).trace =
      [replyMsg (query "loop.example.com." "A")
        [⟨"loop.example.com.", "CNAME", "loop.example.com."⟩,
         ⟨"loop.example.com.", "A", "9.9.9.9"⟩] []] := by
  decide

/-- C6 (amended). NOTIMP for an unsupported type: for every query whose name matches a
zone that loads, whose owner location is non-empty and whose type is none of A, AAAA,
CNAME, TXT, NS, MX, SRV, SOA, CAA, AXFR, `ServeDNS` writes exactly one message, namely
`state.SizeAndDo` applied to a message whose response code is NotImplemented and whose
Answer and Extra sections are empty. If size adaptation keeps the response code and the
Answer section of the replies to this request, the written message has response code
NotImplemented and no answer records; if it keeps their Extra section, the written
message carries no extra records. Whatever CNAME records the owner has, no conversion is
called and the only store lookup is the one at the owner (no CNAME chase). -/
theorem ServeDNS_notimp_unsupported_type (lib : Lib) (redis : Redis) (r : Msg)
    (zone : String) (z : Zone)
    (hz : lib.Matches (reload lib redis).2 (lib.Name ⟨r⟩) = zone) (hne : zone ≠ "")
    (hl : redis.load zone = some z)
    (hq : lib.QType ⟨r⟩ ∉
      ["A", "AAAA", "CNAME", "TXT", "NS", "MX", "SRV", "SOA", "CAA", "AXFR"])
    (hloc : redis.findLocation (lib.Name ⟨r⟩) z ≠ "") :
    written (ServeDNS lib redis r).trace =
      [lib.SizeAndDo ⟨r⟩ (errorMsg ⟨r⟩ RcodeNotImplemented)] ∧
    (errorMsg ⟨r⟩ RcodeNotImplemented).Rcode = RcodeNotImplemented ∧
    (errorMsg ⟨r⟩ RcodeNotImplemented).Answer = [] ∧
    (errorMsg ⟨r⟩ RcodeNotImplemented).Extra = [] ∧
    ((∀ m, (lib.SizeAndDo ⟨r⟩ m).Rcode = m.Rcode ∧ (lib.SizeAndDo ⟨r⟩ m).Answer = m.Answer) →
      ∀ m ∈ written (ServeDNS lib redis r).trace,
        m.Rcode = RcodeNotImplemented ∧ m.Answer = []) ∧
    ((∀ m, (lib.SizeAndDo ⟨r⟩ m).Extra = m.Extra) →
      ∀ m ∈ written (ServeDNS lib redis r).trace, m.Extra = []) ∧
    (ServeDNS lib redis r).trace.countP Event.isConv = 0 ∧
    (ServeDNS lib redis r).trace.filter Event.isGet =
      [.get (redis.findLocation (lib.Name ⟨r⟩) z) z] := by
  simp only [List.mem_cons, List.mem_singleton, not_or, List.not_mem_nil, or_false] at hq
  obtain ⟨h1, h2, h3, h4, h5, h6, h7, h8, h9, h10⟩ := hq
  have hsw : switchQtype redis (lib.QType ⟨r⟩) (lib.Name ⟨r⟩) z
      (redis.get (redis.findLocation (lib.Name ⟨r⟩) z) z) = none := by
    simp [switchQtype, h1, h2, h3, h4, h5, h6, h7, h8, h9]
  rw [ServeDNS_notimp lib redis r zone z hz hne hl h10 hloc hsw]
  have hf := errorMsg_fields ⟨r⟩ RcodeNotImplemented
  have hg : (reload lib redis).1.filter Event.isGet = [] := by
    unfold reload
    split <;> simp [Event.isGet]
  have hw : written ((reload lib redis).1 ++
      [.load zone, .findLocation (lib.Name ⟨r⟩) z,
       .get (redis.findLocation (lib.Name ⟨r⟩) z) z,
       .WriteMsg (lib.SizeAndDo ⟨r⟩ (errorMsg ⟨r⟩ RcodeNotImplemented))]) =
      [lib.SizeAndDo ⟨r⟩ (errorMsg ⟨r⟩ RcodeNotImplemented)] := by
    simp [written_append, written_reload, written]
  refine ⟨hw, hf.1, hf.2.1, hf.2.2.1, ?_, ?_, ?_, ?_⟩
  · intro hkeep m hm
    simp only [hw, List.mem_singleton] at hm
    rw [hm, (hkeep _).1, (hkeep _).2]
    exact ⟨hf.1, hf.2.1⟩
  · intro hkeep m hm
    simp only [hw, List.mem_singleton] at hm
    rw [hm, hkeep _]
    exact hf.2.2.1
  · simp [List.countP_append, countP_reload, Event.isConv]
  · simp [List.filter_append, hg, List.filter, Event.isGet]

/-- C6 (amended) at the EDNS0 query `(alias.example.com., HINFO)`, whose owner has a CNAME
record, with a size adaptation that attaches the OPT record: the written message has
response code NotImplemented and no answer records, and the only lookup is at `alias`. -/
theorem ServeDNS_notimp_unsupported_type_witness :
    (exampleRedis.get "alias" exampleZone).CNAME ≠ [] ∧
    written (ServeDNS ednsLib exampleRedis (ednsQuery "alias.example.com." "HINFO")).trace =
      [attachOPT ⟨ednsQuery "alias.example.com." "HINFO"⟩
        (errorMsg ⟨ednsQuery "alias.example.com." "HINFO"⟩ RcodeNotImplemented)] ∧
    ((attachOPT ⟨ednsQuery "alias.example.com." "HINFO"⟩
        (errorMsg ⟨ednsQuery "alias.example.com." "HINFO"⟩ RcodeNotImplemented)).Rcode =
        RcodeNotImplemented ∧
      (attachOPT ⟨ednsQuery "alias.example.com." "HINFO"⟩
        (errorMsg ⟨ednsQuery "alias.example.com." "HINFO"⟩ RcodeNotImplemented)).Answer =
        []) ∧
    (ServeDNS ednsLib exampleRedis (ednsQuery "alias.example.com." "HINFO")).trace.filter
      Event.isGet = [.get "alias" exampleZone] :=
  ⟨by decide,
   (ServeDNS_notimp_unsupported_type ednsLib exampleRedis
      (ednsQuery "alias.example.com." "HINFO") "example.com." exampleZone (by decide)
      (by decide) (by decide) (by decide) (by decide)).1,
   (ServeDNS_notimp_unsupported_type ednsLib exampleRedis
      (ednsQuery "alias.example.com." "HINFO") "example.com." exampleZone (by decide)
      (by decide) (by decide) (by decide) (by decide)).2.2.2.2.1
      (fun m => ⟨attachOPT_Rcode _ m, attachOPT_Answer _ m⟩) _ (by decide),
   (ServeDNS_notimp_unsupported_type ednsLib exampleRedis
      (ednsQuery "alias.example.com." "HINFO") "example.com." exampleZone (by decide)
      (by decide) (by decide) (by decide) (by decide)).2.2.2.2.2.2.2⟩

/-- C6 (counterexample). For the EDNS0 query `(www.example.com., HINFO)` and a size
adaptation that attaches the request's OPT record, every condition of the claim holds and
the one message written has response code NotImplemented, yet its Extra section holds
the OPT record. -/
theorem ServeDNS_notimp_written_with_OPT :
    ednsLib.Matches (reload ednsLib exampleRedis).2
        (ednsLib.Name ⟨ednsQuery "www.example.com." "HINFO"⟩) = "example.com." ∧
    exampleRedis.load "example.com." = some exampleZone ∧
    ednsLib.QType ⟨ednsQuery "www.example.com." "HINFO"⟩ ∉
      ["A", "AAAA", "CNAME", "TXT", "NS", "MX", "SRV", "SOA", "CAA", "AXFR"] ∧
    exampleRedis.findLocation "www.example.com." exampleZone = "www" ∧
    written (ServeDNS ednsLib exampleRedis (ednsQuery "www.example.com." "HINFO")).trace =
      [{ errorMsg ⟨ednsQuery "www.example.com." "HINFO"⟩ RcodeNotImplemented with
          Extra := [optRR] }] ∧
    ¬ ∀ m ∈ written
        (ServeDNS ednsLib exampleRedis (ednsQuery "www.example.com." "HINFO")).trace,
      m.Extra = [] := by
  decide

/-- C7. SERVFAIL on zone-load failure: for every query of every type (AXFR included)
whose name matches a configured zone for which `load` returns none, `ServeDNS` writes
exactly one message, the size-adapted error message whose response code is
ServerFailure and whose Answer and Extra sections are empty, and neither starts a zone
transfer nor calls `findLocation`, `get` or any conversion. -/
theorem ServeDNS_servfail_on_load_failure (lib : Lib) (redis : Redis) (r : Msg)
    (zone : String)
    (hz : lib.Matches (reload lib redis).2 (lib.Name ⟨r⟩) = zone) (hne : zone ≠ "")
    (hl : redis.load zone = none) :
    written (ServeDNS lib redis r).trace =
      [lib.SizeAndDo ⟨r⟩ (errorMsg ⟨r⟩ RcodeServerFailure)] ∧
    (errorMsg ⟨r⟩ RcodeServerFailure).Rcode = RcodeServerFailure ∧
    (errorMsg ⟨r⟩ RcodeServerFailure).Answer = [] ∧
    (errorMsg ⟨r⟩ RcodeServerFailure).Extra = [] ∧
    (ServeDNS lib redis r).trace.countP Event.isTransfer = 0 ∧
    (ServeDNS lib redis r).trace.countP Event.isFindLocation = 0 ∧
    (ServeDNS lib redis r).trace.countP Event.isGet = 0 ∧
    (ServeDNS lib redis r).trace.countP Event.isConv = 0 := by
  rw [ServeDNS_load_none lib redis r zone hz hne hl]
  have hf := errorMsg_fields ⟨r⟩ RcodeServerFailure
  simp [written_append, written_reload, written, List.countP_append, countP_reload,
    Event.isTransfer, Event.isFindLocation, Event.isGet, Event.isConv, hf]

/-- C7 at the AXFR query for `www.broken.org.`, whose zone cannot be loaded. -/
theorem ServeDNS_servfail_on_load_failure_witness :
    exampleRedis.load "broken.org." = none ∧
    written (ServeDNS exampleLib exampleRedis (query "www.broken.org." "AXFR")).trace =
      [errorMsg ⟨query "www.broken.org." "AXFR"⟩ RcodeServerFailure] ∧
    (ServeDNS exampleLib exampleRedis (query "www.broken.org." "AXFR")).trace.countP
      Event.isTransfer = 0 :=
  ⟨by decide,
   (ServeDNS_servfail_on_load_failure exampleLib exampleRedis
      (query "www.broken.org." "AXFR") "broken.org." (by decide) (by decide) (by decide)).1,
   (ServeDNS_servfail_on_load_failure exampleLib exampleRedis
      (query "www.broken.org." "AXFR") "broken.org." (by decide) (by decide)
      (by decide)).2.2.2.2.1⟩

/-- C8. Handler return value: for every query whose name matches a configured zone,
`ServeDNS` returns `(RcodeSuccess, nil)` on every path (SERVFAIL, NXDOMAIN, NOTIMP,
answer, and AXFR whatever `tr.Out` returns); in the no-zone-match case it returns what
the next handler returns, so any other return value comes from there. -/
theorem ServeDNS_return_value (lib : Lib) (redis : Redis) (r : Msg) :
    (lib.Matches (reload lib redis).2 (lib.Name ⟨r⟩) ≠ "" →
      (ServeDNS lib redis r).rcode = RcodeSuccess ∧ (ServeDNS lib redis r).err = none) ∧
    (lib.Matches (reload lib redis).2 (lib.Name ⟨r⟩) = "" →
      ((ServeDNS lib redis r).rcode, (ServeDNS lib redis r).err) =
        lib.NextOrFailure (lib.Name ⟨r⟩) r) := by
  constructor
  · intro hne
    unfold ServeDNS
    simp only [hne, if_false]
    split
    · simp [errorResponse]
    · split
      · simp
      · split
        · simp [errorResponse]
        · split
          · simp [errorResponse]
          · simp
  · intro h
    rw [ServeDNS_forward lib redis r h]

/-- C8 at the query `(www.broken.org., A)`, answered with SERVFAIL. -/
theorem ServeDNS_return_value_witness :
    (ServeDNS exampleLib exampleRedis (query "www.broken.org." "A")).rcode = RcodeSuccess ∧
    (ServeDNS exampleLib exampleRedis (query "www.broken.org." "A")).err = none :=
  (ServeDNS_return_value exampleLib exampleRedis (query "www.broken.org." "A")).1
    (by decide)

/-- C9. Response content with single-level CNAME chase: for every query of a supported
type (the name of a conversion `c`) at a found owner with RecordSet `rs` in zone `z`,
the message handed to size adaptation is the reply skeleton whose Answer section is the
answers of the dispatched conversion applied to `(qname, z, rs)` followed, for each CNAME
record of `rs` in order, by the answers of `A(c.Host, z, get(loc, z))`, and whose Extra
section is built the same way from the extras; the store lookups are the one at the
owner and exactly one per CNAME record, whatever the supported query type. -/
theorem ServeDNS_response_content (lib : Lib) (redis : Redis) (r : Msg) (zone : String)
    (z : Zone) (c : Conv) (qname location : String) (rs : Record)
    (hz : lib.Matches (reload lib redis).2 (lib.Name ⟨r⟩) = zone) (hne : zone ≠ "")
    (hl : redis.load zone = some z) (hq : lib.QType ⟨r⟩ = c.name)
    (hname : lib.Name ⟨r⟩ = qname)
    (hloc : redis.findLocation qname z = location) (hfound : location ≠ "")
    (hrs : redis.get location z = rs) :
    written (ServeDNS lib redis r).trace =
      [lib.Scrub ⟨r⟩ (lib.SizeAndDo ⟨r⟩ (replyMsg r
        ((redis.convert (dispatched c rs) qname z rs).1 ++
          (rs.CNAME.map fun cn =>
            (redis.A cn.Host z (redis.get (TrimSuffix cn.Host ("." ++ z.Name)) z)).1).flatten)
        ((redis.convert (dispatched c rs) qname z rs).2 ++
          (rs.CNAME.map fun cn =>
            (redis.A cn.Host z
              (redis.get (TrimSuffix cn.Host ("." ++ z.Name)) z)).2).flatten)))] ∧
    (ServeDNS lib redis r).trace.filter Event.isConv =
      Event.conv (dispatched c rs) qname z rs ::
        (rs.CNAME.map fun cn =>
          Event.conv .A cn.Host z (redis.get (TrimSuffix cn.Host ("." ++ z.Name)) z)) ∧
    (ServeDNS lib redis r).trace.filter Event.isGet =
      Event.get location z ::
        (rs.CNAME.map fun cn => Event.get (TrimSuffix cn.Host ("." ++ z.Name)) z) := by
  rw [ServeDNS_supported lib redis r zone z c qname location rs hz hne hl hq hname hloc
    hfound hrs]
  refine ⟨?_, ?_, ?_⟩
  · simp [written_append, written_reload, written_chaseEvents, written, chasedAnswers,
      chasedExtras, chased, chaseLocation]
  · simp [List.filter_append, filter_isConv_reload, filter_isConv_chaseEvents, List.filter,
      Event.isConv, chaseLocation]
  · simp [List.filter_append, filter_isGet_reload, filter_isGet_chaseEvents, List.filter,
      Event.isGet, chaseLocation]

/-- C9 at the query `(alias.example.com., TXT)`: the chased A answer of the CNAME target
is appended to the (empty) TXT answers. -/
theorem ServeDNS_response_content_witness :
    written (ServeDNS exampleLib exampleRedis (query "alias.example.com." "TXT")).trace =
      [replyMsg (query "alias.example.com." "TXT")
        [⟨"target.example.com.", "A", "5.6.7.8"⟩] []] ∧
    (ServeDNS exampleLib exampleRedis (query "alias.example.com." "TXT")).trace.filter
      Event.isGet = [.get "alias" exampleZone, .get "target" exampleZone] :=
  ⟨(ServeDNS_response_content exampleLib exampleRedis (query "alias.example.com." "TXT")
      "example.com." exampleZone .TXT "alias.example.com." "alias"
      (exampleRedis.get "alias" exampleZone) (by decide) (by decide) (by decide)
      (by decide) (by decide) (by decide) (by decide) rfl).1,
   (ServeDNS_response_content exampleLib exampleRedis (query "alias.example.com." "TXT")
      "example.com." exampleZone .TXT "alias.example.com." "alias"
      (exampleRedis.get "alias" exampleZone) (by decide) (by decide) (by decide)
      (by decide) (by decide) (by decide) (by decide) rfl).2.2⟩

end CorednsRedis
